import Mathlib

/-!
# Verification of the work-item persistence subsystem

Shallow embedding of `src/ecs_fargate_app/backend/src/modules/storage/storage.service.ts`
(class `StorageService`) of the CloudZA-Tech well-architected-analyzer repository,
together with proofs of the specified properties.

Modelling conventions:
* JavaScript strings are Lean `String`; `Buffer`s / byte arrays are `List Nat`
  (one `Nat` per byte).
* A value that TypeScript types as `string | Buffer` is the inductive `Content`.
* The S3 object store is an association list from keys to stored objects; the
  DynamoDB table is an association list from the `(userId, fileId)` key pair to
  records.  `put` conses (newest entry shadows older ones), deletes filter.
* Every service operation is a pure function from its arguments and a store
  state to `(Except Err α) × St × List Event`: the result *or* the thrown
  error, the post-state (writes that happened before a throw persist, exactly
  as in the TypeScript code), and the trace of store commands issued, in
  issuing order.
* `Date.now()` / `new Date().toISOString()` and the sha-256 digest are ambient
  effects of the runtime; they enter the model as explicit parameters
  (`now`, `hashFn`).  No claim depends on the value of either.
* The `catch` blocks of the source rethrow a fixed per-operation message and
  log the original error; `Err.wrapped msg cause` keeps both the rethrown
  message and the logged cause.
-/

deriving instance DecidableEq for Except

namespace WAStorage

/-! ## String / byte utilities (models of the JavaScript runtime primitives) -/

/-- UTF-8 encoding of a single unicode scalar value, as byte values.
Models how a JavaScript string character ends up in an S3 body. -/
def utf8EncodeChar (c : Char) : List Nat :=
  let n := c.toNat
  if n < 0x80 then [n]
  else if n < 0x800 then [0xC0 ||| (n >>> 6), 0x80 ||| (n &&& 0x3F)]
  else if n < 0x10000 then
    [0xE0 ||| (n >>> 12), 0x80 ||| ((n >>> 6) &&& 0x3F), 0x80 ||| (n &&& 0x3F)]
  else
    [0xF0 ||| (n >>> 18), 0x80 ||| ((n >>> 12) &&& 0x3F),
     0x80 ||| ((n >>> 6) &&& 0x3F), 0x80 ||| (n &&& 0x3F)]

/-- UTF-8 byte sequence of a string (model of `Buffer.from(s, 'utf-8')`). -/
def utf8Bytes (s : String) : List Nat :=
  (s.data.map utf8EncodeChar).flatten

/-- UTF-8 decoding of a byte list back to characters, for well-formed
sequences (model of `Buffer.toString('utf-8')` on the bytes the service
itself produces). -/
def utf8DecodeAux : List Nat → List Char
  | [] => []
  | b :: rest =>
    if b < 0x80 then Char.ofNat b :: utf8DecodeAux rest
    else if b < 0xE0 then
      match rest with
      | b1 :: rest1 => Char.ofNat (((b - 0xC0) <<< 6) + (b1 - 0x80)) :: utf8DecodeAux rest1
      | [] => []
    else if b < 0xF0 then
      match rest with
      | b1 :: b2 :: rest2 =>
          Char.ofNat (((b - 0xE0) <<< 12) + ((b1 - 0x80) <<< 6) + (b2 - 0x80)) ::
            utf8DecodeAux rest2
      | _ => []
    else
      match rest with
      | b1 :: b2 :: b3 :: rest3 =>
          Char.ofNat (((b - 0xF0) <<< 18) + ((b1 - 0x80) <<< 12) +
            ((b2 - 0x80) <<< 6) + (b3 - 0x80)) :: utf8DecodeAux rest3
      | _ => []

/-- UTF-8 decode to a string. -/
def utf8Decode (b : List Nat) : String :=
  ⟨utf8DecodeAux b⟩

/-- `s.startsWith(p)` of JavaScript / `String.startsWith` of Lean, phrased on
the character lists so that it reduces in the kernel. -/
def strStartsWith (s p : String) : Bool :=
  p.data.isPrefixOf s.data

/-- The base64 alphabet. -/
def base64Chars : List Char :=
  "ABCDEFGHIJKLMNOPQRSTUVWXYZabcdefghijklmnopqrstuvwxyz0123456789+/".data

/-- Index of a character in the base64 alphabet, `none` for characters outside
it (Node's decoder skips those, including the `=` padding). -/
def base64CharVal (c : Char) : Option Nat :=
  base64Chars.indexOf? c

/-- Decode a list of 6-bit values into bytes (groups of four values give three
bytes; a trailing group of three / two values gives two / one byte). -/
def base64DecodeVals : List Nat → List Nat
  | a :: b :: c :: d :: rest =>
      ((a <<< 2) + (b >>> 4)) :: (((b &&& 0xF) <<< 4) + (c >>> 2)) ::
        (((c &&& 0x3) <<< 6) + d) :: base64DecodeVals rest
  | [a, b, c] => [(a <<< 2) + (b >>> 4), ((b &&& 0xF) <<< 4) + (c >>> 2)]
  | [a, b] => [(a <<< 2) + (b >>> 4)]
  | _ => []

/-- Model of `Buffer.from(s, 'base64')`: non-alphabet characters (including
padding) are skipped, then 6-bit groups are packed into bytes. -/
def base64Decode (s : String) : List Nat :=
  base64DecodeVals (s.data.filterMap base64CharVal)

/-- Character of a 6-bit value in the base64 alphabet. -/
def b64Char (n : Nat) : Char :=
  base64Chars.getD n 'A'

/-- Encode bytes into base64 characters with padding. -/
def base64EncodeAux : List Nat → List Char
  | b1 :: b2 :: b3 :: rest =>
      b64Char (b1 >>> 2) :: b64Char (((b1 &&& 0x3) <<< 4) + (b2 >>> 4)) ::
        b64Char (((b2 &&& 0xF) <<< 2) + (b3 >>> 6)) :: b64Char (b3 &&& 0x3F) ::
          base64EncodeAux rest
  | [b1, b2] =>
      [b64Char (b1 >>> 2), b64Char (((b1 &&& 0x3) <<< 4) + (b2 >>> 4)),
       b64Char ((b2 &&& 0xF) <<< 2), '=']
  | [b1] => [b64Char (b1 >>> 2), b64Char ((b1 &&& 0x3) <<< 4), '=', '=']
  | [] => []

/-- Model of `Buffer.toString('base64')`. -/
def base64Encode (b : List Nat) : String :=
  ⟨base64EncodeAux b⟩

/-- Splitting on a (non-empty) separator, accumulator-passing worker.
Same semantics as JavaScript `String.prototype.split` with a non-empty
string separator: non-overlapping matches, scanned left to right.  The fuel
argument (instantiated with the input length, an upper bound on the number of
steps) only makes the recursion structural, so that the definition reduces in
the kernel; it is never exhausted. -/
def splitOnCharsAux (sep : List Char) : Nat → List Char → List Char → List (List Char)
  | _, [], acc => [acc.reverse]
  | 0, s, acc => [acc.reverse ++ s]
  | fuel + 1, c :: rest, acc =>
    if sep ≠ [] ∧ sep.isPrefixOf (c :: rest) then
      acc.reverse :: splitOnCharsAux sep fuel (List.drop (sep.length - 1) rest) []
    else
      splitOnCharsAux sep fuel rest (c :: acc)

/-- Model of JavaScript `s.split(sep)` for a non-empty string separator. -/
def strSplitOn (s sep : String) : List String :=
  (splitOnCharsAux sep.data s.data.length s.data []).map (fun l => ⟨l⟩)

/-! ## Data model

`WorkItem` and `StorageConfig` are declared in
`src/shared/interfaces/storage.interface.ts`, which is not under `src/`;
the fields below are modelled from the spec (section 3) and from every use the
service makes of them.  `FileUploadMode` is declared in
`src/shared/dto/analysis.dto.ts` (also absent); the spec fixes its three
values. -/

/-- Upload mode of a work item (spec section 3). -/
inductive FileUploadMode
  | SINGLE_FILE
  | MULTIPLE_FILES
  | ZIP_FILE
deriving DecidableEq

/-- A work-item metadata record.  Optional TypeScript fields are `Option`s;
an absent (`undefined`) field is `none`. -/
structure WorkItem where
  userId : String
  fileId : String
  fileName : String
  fileType : String
  uploadDate : String
  analysisStatus : String
  analysisProgress : Nat
  iacGenerationStatus : String
  iacGenerationProgress : Nat
  s3Prefix : String
  lastModified : String
  uploadMode : FileUploadMode
  tokenCount : Option Nat := none
  exceedsTokenLimit : Option Bool := none
  supportingDocumentId : Option String := none
  supportingDocumentAdded : Option Bool := none
  supportingDocumentName : Option String := none
  supportingDocumentType : Option String := none
  supportingDocumentDescription : Option String := none
  iacGeneratedFileType : Option String := none
deriving DecidableEq

/-- `StorageConfig` of the service (`enabled`, `bucket`, `table`). -/
structure StorageConfig where
  enabled : Bool
  bucket : String
  table : String
deriving DecidableEq

/-- A value that TypeScript types as `string | Buffer`. -/
inductive Content
  | str (s : String)
  | buf (b : List Nat)
deriving DecidableEq

/-- The byte sequence a content value occupies in an S3 body
(model of `Body.transformToByteArray`). -/
def contentBytes : Content → List Nat
  | .str s => utf8Bytes s
  | .buf b => b

/-- An object stored in the S3 bucket: its body and its `ContentType`. -/
structure S3Obj where
  body : Content
  contentType : String
deriving DecidableEq

/-- The `S3Locations` record returned by `getS3Locations`. -/
structure S3Locations where
  metadata : String
  originalContent : String
  analysisResults : String
  iacDocument : String
  packedContent : String
  supportingDocument : String
deriving DecidableEq

/-- Errors of the subsystem.  `wrapped msg cause` models a `catch` block that
rethrows `new Error(msg)` after logging `cause`. -/
inductive Err
  | disabled
  | workItemNotFound
  | noSupportingDoc
  | supportingDocMismatch
  | s3NoSuchKey (key : String)
  | msg (s : String)
  | wrapped (m : String) (cause : Err)
deriving DecidableEq

/-- Store commands issued by an operation, in issuing order. -/
inductive Event
  | s3Put (key : String)
  | s3Get (key : String)
  | s3List (root : String)
  | s3DeleteMany (keys : List String)
  | ddbPut (key : String × String)
  | ddbGet (key : String × String)
  | ddbDelete (key : String × String)
deriving DecidableEq

/-- Combined state of the two backing stores. -/
structure St where
  s3 : List (String × S3Obj)
  ddb : List ((String × String) × WorkItem)
deriving DecidableEq

/-- Outcome of a service operation: result or thrown error, post-state, and
the trace of store commands. -/
abbrev Out (α : Type) := Except Err α × St × List Event

/-! ## Pure store primitives -/

/-- Lookup of an S3 key (newest entry wins). -/
def s3Lookup (st : St) (k : String) : Option S3Obj :=
  List.lookup k st.s3

/-- `PutObject` / a finished `Upload`: the new entry shadows older ones. -/
def s3PutObj (st : St) (k : String) (o : S3Obj) : St :=
  { st with s3 := (k, o) :: st.s3 }

/-- Bulk delete of a list of keys (`DeleteObjectsCommand`). -/
def s3DeleteKeys (st : St) (ks : List String) : St :=
  { st with s3 := st.s3.filter (fun kv => decide (kv.1 ∉ ks)) }

/-- `ListObjectsV2Command` with a key root: all stored keys that extend it. -/
def s3ListKeys (st : St) (root : String) : List String :=
  (st.s3.filter (fun kv => root.data.isPrefixOf kv.1.data)).map (fun kv => kv.1)

/-- Lookup of a DynamoDB record by its `(userId, fileId)` key. -/
def ddbLookup (st : St) (k : String × String) : Option WorkItem :=
  List.lookup k st.ddb

/-- `PutItemCommand`: the new record shadows older ones. -/
def ddbPutItem (st : St) (k : String × String) (w : WorkItem) : St :=
  { st with ddb := (k, w) :: st.ddb }

/-- `DeleteItemCommand`: removes the record; succeeds also when absent. -/
def ddbDeleteItem (st : St) (k : String × String) : St :=
  { st with ddb := st.ddb.filter (fun kv => decide (kv.1 ≠ k)) }

/-! ## `getS3Locations` (the key layout) -/

/-- The storage root `` `${userId}/${fileId}` `` (the local `prefix` of the
source, renamed because `prefix` is a Lean keyword). -/
def storageRoot (userId fileId : String) : String :=
  userId ++ "/" ++ fileId

/-- `getS3Locations` of `storage.service.ts` (lines 56-66). -/
def getS3Locations (userId fileId : String) : S3Locations :=
  { metadata := storageRoot userId fileId ++ "/metadata.json"
    originalContent := storageRoot userId fileId ++ "/original_content"
    analysisResults := storageRoot userId fileId ++ "/analysis/analysis_results.json"
    iacDocument := storageRoot userId fileId ++ "/iac_templates/generated_template"
    packedContent := storageRoot userId fileId ++ "/packed_content"
    supportingDocument := storageRoot userId fileId ++ "/supporting_document" }

/-- The six keys of an `S3Locations` record, as a list. -/
def keyList (l : S3Locations) : List String :=
  [l.metadata, l.originalContent, l.analysisResults, l.iacDocument,
   l.packedContent, l.supportingDocument]

/-- A valid id: a sha-256 hex digest, i.e. 64 lower-case hexadecimal
characters (`createUserIdHash` / `createFileIdHash` produce exactly these). -/
def validId (s : String) : Prop :=
  s.length = 64 ∧ ∀ c ∈ s.data, c.isDigit ∨ ('a' ≤ c ∧ c ≤ 'f')

instance (s : String) : Decidable (validId s) := by
  unfold validId; infer_instance

/-- A concrete 64-character id made of one repeated hex character (for
instantiating theorems at concrete valid ids). -/
def hexId (c : Char) : String :=
  ⟨List.replicate 64 c⟩

/-! ## Service operations (typed model)

Each definition mirrors one method of `StorageService`.  The `enabled` guard
is present exactly where the source has
`if (!this.config.enabled) throw new Error('Storage is not enabled')` —
in particular `handleZipFile`, `handleMultipleFiles` and
`storeWorkItemInDynamoDB` have no guard, exactly as in the source. -/

/-- `getWorkItem` (lines 572-599).  Note that the source's
`throw new Error('Work item not found')` sits inside its own `try`, so it is
always rethrown as `'Failed to get work item'`. -/
def getWorkItem (cfg : StorageConfig) (userId fileId : String) (st : St) :
    Out WorkItem :=
  if ¬cfg.enabled then (.error .disabled, st, [])
  else
    match ddbLookup st (userId, fileId) with
    | some item => (.ok item, st, [.ddbGet (userId, fileId)])
    | none =>
        (.error (.wrapped "Failed to get work item" .workItemNotFound), st,
         [.ddbGet (userId, fileId)])

/-- `getPackedContent` (lines 425-449); `transformToString` decodes the body
bytes as UTF-8. -/
def getPackedContent (cfg : StorageConfig) (userId fileId : String) (st : St) :
    Out String :=
  if ¬cfg.enabled then (.error .disabled, st, [])
  else
    let locs := getS3Locations userId fileId
    match s3Lookup st locs.packedContent with
    | some obj =>
        (.ok (utf8Decode (contentBytes obj.body)), st, [.s3Get locs.packedContent])
    | none =>
        (.error (.wrapped "Failed to get packed content" (.s3NoSuchKey locs.packedContent)),
         st, [.s3Get locs.packedContent])

/-- `storePackedContent` (lines 389-417): uploads the packed text under the
packed-content key with content type `text/plain`. -/
def storePackedContent (cfg : StorageConfig) (userId fileId : String)
    (content : String) (st : St) : Out Unit :=
  if ¬cfg.enabled then (.error .disabled, st, [])
  else
    let locs := getS3Locations userId fileId
    (.ok (), s3PutObj st locs.packedContent ⟨.str content, "text/plain"⟩,
     [.s3Put locs.packedContent])

/-- `storeOriginalContent` (lines 802-850).  A string body with an `image/*`
file type is treated as a (possibly data-URI-wrapped) base64 payload:
`content.split(';base64,')[1] || content` then `Buffer.from(_, 'base64')`.
Everything else is stored as given. -/
def storeOriginalContent (cfg : StorageConfig) (userId fileId : String)
    (content : Content) (fileType : String) (st : St) : Out Unit :=
  if ¬cfg.enabled then (.error .disabled, st, [])
  else
    let locs := getS3Locations userId fileId
    match content, strStartsWith fileType "image/" with
    | .str s, true =>
        let part1 := (strSplitOn s ";base64,").getD 1 ""
        let base64Data := if part1 = "" then s else part1
        (.ok (),
         s3PutObj st locs.originalContent ⟨.buf (base64Decode base64Data), fileType⟩,
         [.s3Put locs.originalContent])
    | c, _ =>
        (.ok (), s3PutObj st locs.originalContent ⟨c, fileType⟩,
         [.s3Put locs.originalContent])

/-- Result shape of `getOriginalContent`. -/
structure ContentResult where
  data : Content
  contentType : String
deriving DecidableEq

/-- The pure serving step of `getOriginalContent` (lines 892-917) applied to a
fetched object: raw buffer for downloads, data URI for images, UTF-8 text
otherwise; an absent/empty stored content type defaults to
`application/octet-stream`. -/
def serveStoredOriginal (obj : S3Obj) (forDownload : Bool) : ContentResult :=
  let contentType :=
    if obj.contentType = "" then "application/octet-stream" else obj.contentType
  let response := contentBytes obj.body
  if forDownload then ⟨.buf response, contentType⟩
  else if strStartsWith contentType "image/" then
    ⟨.str ("data:" ++ contentType ++ ";base64," ++ base64Encode response), contentType⟩
  else ⟨.str (utf8Decode response), contentType⟩

/-- Fetch of the original-content object followed by `serveStoredOriginal`
(lines 885-917). -/
def fetchServeOriginal (key : String) (forDownload : Bool) (st : St)
    (tr : List Event) : Out ContentResult :=
  match s3Lookup st key with
  | none =>
      (.error (.wrapped "Failed to get original content" (.s3NoSuchKey key)), st,
       tr ++ [.s3Get key])
  | some obj => (.ok (serveStoredOriginal obj forDownload), st, tr ++ [.s3Get key])

/-- `getOriginalContent` (lines 852-922): reads the work item; in
MULTIPLE_FILES / ZIP_FILE mode and not for download it tries the packed
content first and falls back to the original on any packed-content error
(the source logs a warning and falls through). -/
def getOriginalContent (cfg : StorageConfig) (userId fileId : String)
    (forDownload : Bool) (st : St) : Out ContentResult :=
  if ¬cfg.enabled then (.error .disabled, st, [])
  else
    let locs := getS3Locations userId fileId
    match getWorkItem cfg userId fileId st with
    | (.error e, st1, tr1) =>
        (.error (.wrapped "Failed to get original content" e), st1, tr1)
    | (.ok workItem, st1, tr1) =>
      if (workItem.uploadMode = .MULTIPLE_FILES ∨ workItem.uploadMode = .ZIP_FILE) ∧
          forDownload = false then
        match getPackedContent cfg userId fileId st1 with
        | (.ok packed, st2, tr2) =>
            (.ok ⟨.str packed, "text/plain"⟩, st2, tr1 ++ tr2)
        | (.error _, st2, tr2) =>
            fetchServeOriginal locs.originalContent forDownload st2 (tr1 ++ tr2)
      else
        fetchServeOriginal locs.originalContent forDownload st1 tr1

/-- JavaScript falsiness of an optional string (`undefined` or `''`). -/
def jsFalsyOptStr : Option String → Bool
  | none => true
  | some s => decide (s = "")

/-- JavaScript falsiness of an optional boolean (`undefined` or `false`). -/
def jsFalsyOptBool : Option Bool → Bool
  | none => true
  | some b => !b

/-- JavaScript `o || dflt` for an optional string. -/
def jsOrStr (o : Option String) (dflt : String) : String :=
  match o with
  | none => dflt
  | some s => if s = "" then dflt else s

/-- The supporting-document blob key
`` `${userId}/${mainFileId}/supporting_documents/${supportingDocId}` ``
(lines 88 and 171). -/
def supportingDocKey (userId mainFileId supportingDocId : String) : String :=
  userId ++ "/" ++ mainFileId ++ "/supporting_documents/" ++ supportingDocId

/-- Result shape of `getSupportingDocument`. -/
structure SupportingDocResult where
  data : Content
  contentType : String
  fileName : String
deriving DecidableEq

/-- `getSupportingDocument` (lines 147-192): validates that the work item
links a supporting document and that the requested id matches the linked one
before fetching the blob. -/
def getSupportingDocument (cfg : StorageConfig)
    (userId mainFileId supportingDocId : String) (st : St) :
    Out SupportingDocResult :=
  if ¬cfg.enabled then (.error .disabled, st, [])
  else
    match getWorkItem cfg userId mainFileId st with
    | (.error e, st1, tr1) =>
        (.error (.wrapped "Failed to get supporting document" e), st1, tr1)
    | (.ok workItem, st1, tr1) =>
      if jsFalsyOptStr workItem.supportingDocumentId ||
          jsFalsyOptBool workItem.supportingDocumentAdded then
        (.error (.wrapped "Failed to get supporting document" .noSupportingDoc), st1, tr1)
      else if workItem.supportingDocumentId ≠ some supportingDocId then
        (.error (.wrapped "Failed to get supporting document" .supportingDocMismatch),
         st1, tr1)
      else
        let key := supportingDocKey userId mainFileId supportingDocId
        match s3Lookup st1 key with
        | none =>
            (.error (.wrapped "Failed to get supporting document" (.s3NoSuchKey key)),
             st1, tr1 ++ [.s3Get key])
        | some obj =>
            (.ok { data := .buf (contentBytes obj.body)
                   contentType :=
                     if obj.contentType = "" then "application/octet-stream"
                     else obj.contentType
                   fileName := jsOrStr workItem.supportingDocumentName
                     "supporting-document" },
             st1, tr1 ++ [.s3Get key])

/-- `storeWorkItemInDynamoDB` (lines 367-381).  Faithful to the source, this
private helper has NO `enabled` guard: it sends the `PutItemCommand`
unconditionally. -/
def storeWorkItemInDynamoDB (cfg : StorageConfig) (workItem : WorkItem) (st : St) :
    Out Unit :=
  (.ok (), ddbPutItem st (workItem.userId, workItem.fileId) workItem,
   [.ddbPut (workItem.userId, workItem.fileId)])

/-! ## The content packer

`ProjectPacker` lives in `src/shared/utils/project-packer.ts`, which is not
under `src/`.  Modelled from the spec (section 4.2): the extraction /
concatenation of archive entries is an arbitrary function parameter
(`extractZip`, `extractMulti`, `mkZip`), the token estimate is a
deterministic function of the packed text that is monotone in its length (the
spec fixes no formula; no claim depends on it), and
`exceedsTokenLimit` is `tokenCount > configuredLimit`. -/

/-- Modelled from the spec: deterministic, reproducible token estimate,
monotone in content length (section 4.2; the concrete formula is not
specified and no claim depends on it). -/
def estimateTokens (s : String) : Nat :=
  s.length / 4

/-- A packed project: the packed text plus its token measurement. -/
structure PackedProject where
  packedContent : String
  tokenCount : Nat
  exceedsTokenLimit : Bool
deriving DecidableEq

/-- Modelled from the spec: the measurement the packer attaches to a packed
text — `tokenCount` is the estimate and `exceedsTokenLimit` is
`tokenCount > configuredLimit` (sections 4.2 and 8). -/
def mkPackedProject (limit : Nat) (text : String) : PackedProject :=
  { packedContent := text
    tokenCount := estimateTokens text
    exceedsTokenLimit := decide (estimateTokens text > limit) }

/-- Result shape of `handleZipFile` / `handleMultipleFiles`. -/
structure ZipResult where
  fileId : String
  tokenCount : Nat
  exceedsTokenLimit : Bool
deriving DecidableEq

/-- The work item `handleZipFile` builds (lines 238-253). -/
def mkZipWorkItem (userId fileId filename now : String)
    (packedProject : PackedProject) : WorkItem :=
  { userId := userId
    fileId := fileId
    fileName := filename
    fileType := "application/zip"
    uploadDate := now
    analysisStatus := "NOT_STARTED"
    analysisProgress := 0
    iacGenerationStatus := "NOT_STARTED"
    iacGenerationProgress := 0
    s3Prefix := storageRoot userId fileId
    lastModified := now
    uploadMode := .ZIP_FILE
    tokenCount := some packedProject.tokenCount
    exceedsTokenLimit := some packedProject.exceedsTokenLimit }

/-- `handleZipFile` (lines 224-282).  `extractZip` stands for the packed-text
extraction of `projectPacker.processZipFile` (not under `src/`); `hashFn` for
the sha-256 hex digest; `now` for `Date.now().toString()` /
`new Date().toISOString()`.  Faithful to the source, there is no `enabled`
guard, and the DynamoDB put happens before the two S3 writes; any error of a
later step is rethrown as `'Failed to process zip file: ...'` while earlier
writes persist. -/
def handleZipFile (cfg : StorageConfig) (hashFn : String → String) (now : String)
    (limit : Nat) (extractZip : List Nat → String → Except String String)
    (userId filename : String) (buffer : List Nat) (st : St) : Out ZipResult :=
  match (extractZip buffer filename).map (mkPackedProject limit) with
  | .error m => (.error (.wrapped "Failed to process zip file" (.msg m)), st, [])
  | .ok packedProject =>
    let fileId := hashFn (filename ++ now)
    let workItem := mkZipWorkItem userId fileId filename now packedProject
    match storeWorkItemInDynamoDB cfg workItem st with
    | (.error e, st1, tr1) =>
        (.error (.wrapped "Failed to process zip file" e), st1, tr1)
    | (.ok _, st1, tr1) =>
      match storeOriginalContent cfg userId fileId (.buf buffer) "application/zip" st1 with
      | (.error e, st2, tr2) =>
          (.error (.wrapped "Failed to process zip file" e), st2, tr1 ++ tr2)
      | (.ok _, st2, tr2) =>
        match storePackedContent cfg userId fileId packedProject.packedContent st2 with
        | (.error e, st3, tr3) =>
            (.error (.wrapped "Failed to process zip file" e), st3, tr1 ++ tr2 ++ tr3)
        | (.ok _, st3, tr3) =>
            (.ok { fileId := fileId
                   tokenCount := packedProject.tokenCount
                   exceedsTokenLimit := packedProject.exceedsTokenLimit },
             st3, tr1 ++ tr2 ++ tr3)

/-- One element of the `files` argument of `handleMultipleFiles`. -/
structure FileInput where
  filename : String
  buffer : List Nat
  mimetype : String
deriving DecidableEq

/-- The combined file name of a multi-file upload (lines 312-314). -/
def combinedName (files : List FileInput) : String :=
  if files.length < 2 then String.intercalate "_" (files.map (fun f => f.filename))
  else
    match files with
    | [] => ""
    | f0 :: _ =>
        f0.filename ++ "_and_" ++ toString (files.length - 1) ++ "_more_files"

/-- The work item `handleMultipleFiles` builds (lines 317-332). -/
def mkMultiWorkItem (userId fileId combinedFilename now : String)
    (packedProject : PackedProject) : WorkItem :=
  { userId := userId
    fileId := fileId
    fileName := combinedFilename
    fileType := "application/multiple-files"
    uploadDate := now
    analysisStatus := "NOT_STARTED"
    analysisProgress := 0
    iacGenerationStatus := "NOT_STARTED"
    iacGenerationProgress := 0
    s3Prefix := storageRoot userId fileId
    lastModified := now
    uploadMode := .MULTIPLE_FILES
    tokenCount := some packedProject.tokenCount
    exceedsTokenLimit := some packedProject.exceedsTokenLimit }

/-- `handleMultipleFiles` (lines 290-361).  `mkZip` stands for
`projectPacker.createZipFromFiles` and `extractMulti` for the packed-text
extraction of `projectPacker.processMultipleFiles` (both not under `src/`).
An empty file list fails inside the packer (spec section 4.2: empty file sets
fail with a descriptive error; in the source `files[0].filename` would also
throw), wrapped like every other error of this method.  As in the source, the
synthesized zip is stored as the original content with type
`application/zip`, and the metadata put precedes the S3 writes. -/
def handleMultipleFiles (cfg : StorageConfig) (hashFn : String → String)
    (now : String) (limit : Nat) (mkZip : List FileInput → List Nat)
    (extractMulti : List FileInput → Except String String)
    (userId : String) (files : List FileInput) (st : St) : Out ZipResult :=
  match files with
  | [] =>
      (.error (.wrapped "Failed to process multiple files" (.msg "empty file set")),
       st, [])
  | f0 :: _ =>
    let zipBuffer := mkZip files
    match (extractMulti files).map (mkPackedProject limit) with
    | .error m =>
        (.error (.wrapped "Failed to process multiple files" (.msg m)), st, [])
    | .ok packedProject =>
      let fileId := hashFn (f0.filename ++ now)
      let workItem := mkMultiWorkItem userId fileId (combinedName files) now packedProject
      match storeWorkItemInDynamoDB cfg workItem st with
      | (.error e, st1, tr1) =>
          (.error (.wrapped "Failed to process multiple files" e), st1, tr1)
      | (.ok _, st1, tr1) =>
        match storeOriginalContent cfg userId fileId (.buf zipBuffer)
            "application/zip" st1 with
        | (.error e, st2, tr2) =>
            (.error (.wrapped "Failed to process multiple files" e), st2, tr1 ++ tr2)
        | (.ok _, st2, tr2) =>
          match storePackedContent cfg userId fileId packedProject.packedContent st2 with
          | (.error e, st3, tr3) =>
              (.error (.wrapped "Failed to process multiple files" e), st3,
               tr1 ++ tr2 ++ tr3)
          | (.ok _, st3, tr3) =>
              (.ok { fileId := fileId
                     tokenCount := packedProject.tokenCount
                     exceedsTokenLimit := packedProject.exceedsTokenLimit },
               st3, tr1 ++ tr2 ++ tr3)

/-- `deleteWorkItem` (lines 626-668): lists every object under the storage
root, bulk-deletes them when there are any (`Contents.length > 0`), then
deletes the metadata record (`DeleteItemCommand` succeeds also when the
record is absent). -/
def deleteWorkItem (cfg : StorageConfig) (userId fileId : String) (st : St) :
    Out Unit :=
  if ¬cfg.enabled then (.error .disabled, st, [])
  else
    let root := storageRoot userId fileId
    let ks := s3ListKeys st root
    if ks = [] then
      (.ok (), ddbDeleteItem st (userId, fileId),
       [.s3List root, .ddbDelete (userId, fileId)])
    else
      (.ok (), ddbDeleteItem (s3DeleteKeys st ks) (userId, fileId),
       [.s3List root, .s3DeleteMany ks, .ddbDelete (userId, fileId)])

/-! ## `updateWorkItem` (attribute-level model)

`updateWorkItem` (lines 525-570) builds a generic DynamoDB update expression
from `Object.entries(updates)`, so it is modelled at the attribute level: a
record is an association list of attribute names to values, and the update
argument is the entry list of the TypeScript partial, where `none` is an
`undefined` entry.  `UpdateItemCommand` semantics captured here: it *upserts*
(a missing record is created, containing the key attributes plus the SET
attributes), `ReturnValues: 'ALL_NEW'` returns the whole post-update record,
and an update expression with an empty clause list (the source would send the
string `'SET '`) is rejected with a `ValidationException`. -/

/-- A DynamoDB attribute value (scalars suffice for `WorkItem`). -/
inductive AttrVal
  | S (s : String)
  | N (n : Int)
  | BOOL (b : Bool)
deriving DecidableEq

/-- A record as stored in the table. -/
abbrev AttrMap := List (String × AttrVal)

/-- The table keyed by `(userId, fileId)`. -/
abbrev AttrTable := List ((String × String) × AttrMap)

/-- Attribute lookup (first entry wins). -/
def getAttr (m : AttrMap) (k : String) : Option AttrVal :=
  List.lookup k m

/-- `SET` of a single attribute. -/
def setAttr (m : AttrMap) (k : String) (v : AttrVal) : AttrMap :=
  (k, v) :: m.filter (fun kv => decide (kv.1 ≠ k))

/-- The entry list of the TypeScript partial `WorkItemUpdate`; a `none` value
is an `undefined` entry. -/
abbrev WorkItemUpdate := List (String × Option AttrVal)

/-- The entries that survive the source's `if (value !== undefined)` filter. -/
def effectiveUpdates (updates : WorkItemUpdate) : List (String × AttrVal) :=
  updates.filterMap (fun kv => kv.2.map (fun v => (kv.1, v)))

/-- The three artefacts the source's `forEach` loop accumulates. -/
structure UpdateParts where
  updateExpr : List String
  exprAttrNames : List (String × String)
  exprAttrValues : List (String × AttrVal)
deriving DecidableEq

/-- Lines 540-546: for every non-`undefined` entry, push
`` `#${key} = :${key}` ``, name `` `#${key}` → key `` and value
`` `:${key}` → value ``. -/
def buildUpdateParts (updates : WorkItemUpdate) : UpdateParts :=
  { updateExpr := (effectiveUpdates updates).map (fun kv => "#" ++ kv.1 ++ " = :" ++ kv.1)
    exprAttrNames := (effectiveUpdates updates).map (fun kv => ("#" ++ kv.1, kv.1))
    exprAttrValues := (effectiveUpdates updates).map (fun kv => (":" ++ kv.1, kv.2)) }

/-- Line 538/548: `'SET ' + updateExpr.join(', ')`. -/
def updateExprStr (p : UpdateParts) : String :=
  "SET " ++ String.intercalate ", " p.updateExpr

/-- DynamoDB's resolution of the `SET #k = :k` clauses: each name placeholder
is resolved through `ExpressionAttributeNames`, each value placeholder through
`ExpressionAttributeValues`. -/
def resolvedSets (p : UpdateParts) : List (String × AttrVal) :=
  p.exprAttrNames.filterMap (fun nv =>
    (List.lookup (":" ++ nv.2) p.exprAttrValues).map (fun v => (nv.2, v)))

/-- Sequential application of the resolved `SET` clauses. -/
def applySets (m : AttrMap) : List (String × AttrVal) → AttrMap
  | [] => m
  | (k, v) :: rest => applySets (setAttr m k v) rest

/-- `UpdateItemCommand` with `ReturnValues: 'ALL_NEW'`: rejects an empty
clause list (the `'SET '` expression the source would send is a
`ValidationException`), otherwise upserts and returns the full new record. -/
def dynamoUpdateItem (tbl : AttrTable) (userId fileId : String) (p : UpdateParts) :
    Except String (AttrMap × AttrTable) :=
  if p.updateExpr = [] then
    .error "ValidationException: invalid UpdateExpression"
  else
    let base :=
      match List.lookup (userId, fileId) tbl with
      | some m => m
      | none => [("userId", .S userId), ("fileId", .S fileId)]
    let newM := applySets base (resolvedSets p)
    .ok (newM, ((userId, fileId), newM) :: tbl.filter (fun kv => decide (kv.1 ≠ (userId, fileId))))

/-- `updateWorkItem` (lines 525-570): builds the update parts from the
non-`undefined` entries and sends the update; the result record
(`unmarshall(result.Attributes)`, an unchecked cast in the source) is
returned as the raw attribute map. -/
def updateWorkItem (cfg : StorageConfig) (userId fileId : String)
    (updates : WorkItemUpdate) (tbl : AttrTable) : Except Err AttrMap × AttrTable :=
  if ¬cfg.enabled then (.error .disabled, tbl)
  else
    match dynamoUpdateItem tbl userId fileId (buildUpdateParts updates) with
    | .ok (newM, tbl2) => (.ok newM, tbl2)
    | .error m => (.error (.wrapped "Failed to update work item" (.msg m)), tbl)

/-! ## Concrete sample data (for instantiating theorems) -/

/-- A configuration with storage enabled (the constructor, lines 38-42,
hardcodes `enabled: true`). -/
def cfgOn : StorageConfig :=
  ⟨true, "bucket", "table"⟩

/-- A configuration with storage disabled. -/
def cfgOff : StorageConfig :=
  ⟨false, "bucket", "table"⟩

/-- A sample single-file work item under key `("u", "f")`. -/
def sampleWorkItem : WorkItem :=
  { userId := "u"
    fileId := "f"
    fileName := "n.yaml"
    fileType := "text/yaml"
    uploadDate := "2024-01-01T00:00:00Z"
    analysisStatus := "NOT_STARTED"
    analysisProgress := 0
    iacGenerationStatus := "NOT_STARTED"
    iacGenerationProgress := 0
    s3Prefix := "u/f"
    lastModified := "2024-01-01T00:00:00Z"
    uploadMode := .SINGLE_FILE }

/-- The sample work item in ZIP_FILE mode. -/
def wiZip : WorkItem :=
  { sampleWorkItem with uploadMode := .ZIP_FILE }

/-- The sample work item with a linked supporting document `"d1"`. -/
def wiDoc : WorkItem :=
  { sampleWorkItem with
      supportingDocumentId := some "d1"
      supportingDocumentAdded := some true
      supportingDocumentName := some "doc.pdf" }

/-- State: zip work item with both packed and original content present. -/
def stPacked : St :=
  ⟨[("u/f/packed_content", ⟨.str "PACKED", "text/plain"⟩),
    ("u/f/original_content", ⟨.buf [104, 105], "application/zip"⟩)],
   [(("u", "f"), wiZip)]⟩

/-- State: zip work item whose packed-content key has been removed. -/
def stNoPacked : St :=
  ⟨[("u/f/original_content", ⟨.buf [104, 105], "application/zip"⟩)],
   [(("u", "f"), wiZip)]⟩

/-- State: single-file work item with image original content. -/
def stImg : St :=
  ⟨[("u/f/original_content", ⟨.buf [137, 80], "image/png"⟩)],
   [(("u", "f"), sampleWorkItem)]⟩

/-- State: single-file work item, empty object store. -/
def stMeta : St :=
  ⟨[], [(("u", "f"), sampleWorkItem)]⟩

/-- State: work item with linked supporting document and its blob. -/
def stDoc : St :=
  ⟨[("u/f/supporting_documents/d1", ⟨.buf [1, 2], "application/pdf"⟩)],
   [(("u", "f"), wiDoc)]⟩

/-! ## Helper lemmas -/

theorem strExt {s t : String} (h : s.data = t.data) : s = t := by
  cases s
  cases t
  exact congrArg String.mk h

theorem strLength_data (s : String) : s.data.length = s.length := rfl

theorem storageRoot_data (u f : String) :
    (storageRoot u f).data = u.data ++ '/' :: f.data := by
  show ((u ++ "/" ++ f).data) = _
  rw [String.data_append, String.data_append]
  simp

theorem key_data (u f sfx : String) :
    (storageRoot u f ++ sfx).data = u.data ++ '/' :: (f.data ++ sfx.data) := by
  rw [String.data_append, storageRoot_data]
  simp

/-- Two storage-root-extending keys are equal only for equal `(userId, fileId)`
pairs, as long as the four id components have the same fixed length: the root
boundary then falls at the same offset in both keys. -/
theorem slashFree_root_inj {u1 f1 u2 f2 : String} (hu1 : u1.length = 64)
    (hu2 : u2.length = 64) (hf1 : f1.length = 64) (hf2 : f2.length = 64)
    {r1 r2 : List Char}
    (h : u1.data ++ '/' :: (f1.data ++ r1) = u2.data ++ '/' :: (f2.data ++ r2)) :
    u1 = u2 ∧ f1 = f2 ∧ r1 = r2 := by
  have hul : u1.data.length = u2.data.length := by
    rw [strLength_data, strLength_data, hu1, hu2]
  obtain ⟨hu, htail⟩ := List.append_inj h hul
  have hftail : f1.data ++ r1 = f2.data ++ r2 := by
    injection htail with _ h2
  have hfl : f1.data.length = f2.data.length := by
    rw [strLength_data, strLength_data, hf1, hf2]
  obtain ⟨hf, hr⟩ := List.append_inj hftail hfl
  exact ⟨strExt hu, strExt hf, hr⟩

/-- If the storage root of one pair is a character-prefix of a key of another
pair (both pairs having 64-character ids), the two pairs coincide. -/
theorem root_prefix_inj {u1 f1 u2 f2 : String} (hu1 : u1.length = 64)
    (hu2 : u2.length = 64) (hf1 : f1.length = 64) (hf2 : f2.length = 64)
    {r : List Char}
    (h : (storageRoot u2 f2).data <+: u1.data ++ '/' :: (f1.data ++ r)) :
    u1 = u2 ∧ f1 = f2 := by
  obtain ⟨t, ht⟩ := h
  rw [storageRoot_data] at ht
  have ht2 : u2.data ++ '/' :: (f2.data ++ t) = u1.data ++ '/' :: (f1.data ++ r) := by
    simpa using ht
  obtain ⟨e1, e2, -⟩ := slashFree_root_inj hu2 hu1 hf2 hf1 ht2
  exact ⟨e1.symm, e2.symm⟩

theorem lookup_filter_ne {α β : Type} [BEq α] [LawfulBEq α] [DecidableEq α]
    (k : α) (l : List (α × β)) :
    List.lookup k (l.filter (fun kv => decide (kv.1 ≠ k))) = none := by
  induction l with
  | nil => rfl
  | cons kv rest ih =>
    by_cases h : kv.1 = k
    · have hd : decide (kv.1 ≠ k) = false := by simp [h]
      simp only [List.filter, hd]
      exact ih
    · have hd : decide (kv.1 ≠ k) = true := by simp [h]
      have hb : (k == kv.1) = false := by
        simp only [beq_eq_false_iff_ne, ne_eq]
        exact fun he => h he.symm
      simp only [List.filter, hd, List.lookup, hb]
      exact ih

theorem mem_s3ListKeys {st : St} {root : String} {kv : String × S3Obj}
    (hmem : kv ∈ st.s3) (hp : root.data <+: kv.1.data) :
    kv.1 ∈ s3ListKeys st root :=
  List.mem_map.mpr
    ⟨kv, List.mem_filter.mpr ⟨hmem, List.isPrefixOf_iff_prefix.mpr hp⟩, rfl⟩

theorem s3ListKeys_nil {st : St} {root : String} (h : s3ListKeys st root = []) :
    ∀ kv ∈ st.s3, ¬ root.data <+: kv.1.data := by
  intro kv hmem
  have hf : st.s3.filter (fun kv => root.data.isPrefixOf kv.1.data) = [] :=
    List.map_eq_nil_iff.mp h
  have h2 := List.filter_eq_nil_iff.mp hf kv hmem
  simpa [List.isPrefixOf_iff_prefix] using h2

theorem lookup_filter_other {α β : Type} [BEq α] [LawfulBEq α] [DecidableEq α]
    {k k2 : α} (hne : k2 ≠ k) (l : List (α × β)) :
    List.lookup k2 (l.filter (fun kv => decide (kv.1 ≠ k))) = List.lookup k2 l := by
  induction l with
  | nil => rfl
  | cons kv rest ih =>
    by_cases h : kv.1 = k
    · have hb : (k2 == kv.1) = false := beq_eq_false_iff_ne.mpr (h ▸ hne)
      have hd : decide (kv.1 ≠ k) = false := by simp [h]
      rw [List.filter_cons, hd, if_neg (by simp), List.lookup, hb]
      exact ih
    · have hd : decide (kv.1 ≠ k) = true := by simp [h]
      rw [List.filter_cons, hd, if_pos rfl]
      by_cases hb : (k2 == kv.1) = true
      · rw [List.lookup, hb, List.lookup, hb]
      · have hb2 : (k2 == kv.1) = false := by simpa using hb
        rw [List.lookup, hb2, List.lookup, hb2]
        exact ih

theorem lookup_cons_cases {α β : Type} [BEq α] [LawfulBEq α] {k0 k : α} {v0 v : β}
    {l : List (α × β)} (h : List.lookup k ((k0, v0) :: l) = some v) :
    (k = k0 ∧ v = v0) ∨ List.lookup k l = some v := by
  by_cases he : (k == k0) = true
  · left
    refine ⟨eq_of_beq he, ?_⟩
    rw [List.lookup, he] at h
    exact (Option.some.inj h).symm
  · right
    have he2 : (k == k0) = false := by simpa using he
    rw [List.lookup, he2] at h
    exact h

theorem lookup_eq_none_of_not_mem {α β : Type} [BEq α] [LawfulBEq α] {k : α}
    {l : List (α × β)} (h : k ∉ l.map Prod.fst) : List.lookup k l = none := by
  induction l with
  | nil => rfl
  | cons kv rest ih =>
    have h1 : k ≠ kv.1 := by
      intro he
      exact h (by simp [he])
    have h2 : k ∉ rest.map Prod.fst := by
      intro hm
      exact h (by simp [hm])
    have hb : (k == kv.1) = false := beq_eq_false_iff_ne.mpr h1
    rw [List.lookup, hb]
    exact ih h2

theorem getAttr_setAttr (m : AttrMap) (k k2 : String) (v : AttrVal) :
    getAttr (setAttr m k v) k2 = if k2 = k then some v else getAttr m k2 := by
  by_cases h : k2 = k
  · subst h
    simp [setAttr, getAttr, List.lookup]
  · have hb : (k2 == k) = false := beq_eq_false_iff_ne.mpr h
    rw [setAttr, getAttr, List.lookup, hb, if_neg h, getAttr]
    exact lookup_filter_other h m

theorem getAttr_applySets_not_mem (ps : List (String × AttrVal)) (m : AttrMap)
    (k : String) (h : k ∉ ps.map Prod.fst) :
    getAttr (applySets m ps) k = getAttr m k := by
  induction ps generalizing m with
  | nil => rfl
  | cons p rest ih =>
    obtain ⟨k0, v0⟩ := p
    have h1 : k ≠ k0 := by
      intro he
      exact h (by simp [he])
    have h2 : k ∉ rest.map Prod.fst := by
      intro hm
      exact h (by simp [hm])
    rw [applySets, ih (setAttr m k0 v0) h2, getAttr_setAttr, if_neg h1]

theorem getAttr_applySets_mem (ps : List (String × AttrVal)) (m : AttrMap)
    (k : String) (v : AttrVal) (hnd : (ps.map Prod.fst).Nodup)
    (h : (k, v) ∈ ps) : getAttr (applySets m ps) k = some v := by
  induction ps generalizing m with
  | nil => cases h
  | cons p rest ih =>
    obtain ⟨k0, v0⟩ := p
    rw [List.map_cons, List.nodup_cons] at hnd
    rcases List.mem_cons.mp h with he | hm
    · injection he with he1 he2
      subst he1
      subst he2
      rw [applySets, getAttr_applySets_not_mem rest _ k hnd.1, getAttr_setAttr,
        if_pos rfl]
    · rw [applySets]
      exact ih _ hnd.2 hm

theorem colon_append_inj {a b : String} (h : ":" ++ a = ":" ++ b) : a = b := by
  have hd := congrArg String.data h
  rw [String.data_append, String.data_append] at hd
  exact strExt (by simpa using hd)

theorem effective_keys_sublist (updates : WorkItemUpdate) :
    ((effectiveUpdates updates).map Prod.fst).Sublist (updates.map Prod.fst) := by
  induction updates with
  | nil => simp [effectiveUpdates]
  | cons kv rest ih =>
    obtain ⟨k, v?⟩ := kv
    cases v? with
    | none =>
      have he : effectiveUpdates ((k, none) :: rest) = effectiveUpdates rest := by
        simp [effectiveUpdates]
      rw [he, List.map_cons]
      exact ih.cons k
    | some v =>
      have he : effectiveUpdates ((k, some v) :: rest) =
          (k, v) :: effectiveUpdates rest := by
        simp [effectiveUpdates]
      rw [he, List.map_cons, List.map_cons]
      exact ih.cons₂ k

theorem lookup_colon_self (eff : List (String × AttrVal))
    (hnd : (eff.map Prod.fst).Nodup) :
    ∀ kv ∈ eff, List.lookup (":" ++ kv.1)
      (eff.map (fun kv => (":" ++ kv.1, kv.2))) = some kv.2 := by
  induction eff with
  | nil =>
    intro kv h
    cases h
  | cons p rest ih =>
    obtain ⟨pk, pv⟩ := p
    rw [List.map_cons, List.nodup_cons] at hnd
    intro kv h
    rcases List.mem_cons.mp h with he | hm
    · subst he
      simp [List.lookup]
    · have hne : kv.1 ≠ pk := by
        intro he
        exact hnd.1 (he ▸ List.mem_map.mpr ⟨kv, hm, rfl⟩)
      have hb : ((":" ++ kv.1) == (":" ++ pk)) = false :=
        beq_eq_false_iff_ne.mpr (fun he => hne (colon_append_inj he))
      simp only [List.map_cons, List.lookup, hb]
      exact ih hnd.2 kv hm

theorem filterMap_resolution (l : List (String × AttrVal))
    (vals : List (String × AttrVal))
    (hl : ∀ kv ∈ l, List.lookup (":" ++ kv.1) vals = some kv.2) :
    List.filterMap
      (fun nv => (List.lookup (":" ++ nv.2) vals).map (fun w => (nv.2, w)))
      (l.map (fun kv => ("#" ++ kv.1, kv.1))) = l := by
  induction l with
  | nil => rfl
  | cons kv rest ih =>
    obtain ⟨k, v⟩ := kv
    have hkv := hl (k, v) (List.mem_cons_self _ rest)
    simp only [List.map_cons, List.filterMap_cons, hkv]
    rw [ih (fun kv2 h2 => hl kv2 (List.mem_cons_of_mem _ h2))]
    rfl

/-- With distinct field names, DynamoDB placeholder resolution recovers
exactly the effective update pairs. -/
theorem resolvedSets_buildUpdateParts (updates : WorkItemUpdate)
    (hnd : ((effectiveUpdates updates).map Prod.fst).Nodup) :
    resolvedSets (buildUpdateParts updates) = effectiveUpdates updates := by
  unfold resolvedSets buildUpdateParts
  exact filterMap_resolution (effectiveUpdates updates) _
    (lookup_colon_self (effectiveUpdates updates) hnd)

/-! ## Claim theorems -/

/-- C1: `getS3Locations` is deterministic (equal inputs give equal outputs)
and injective across distinct valid `(userId, fileId)` pairs: the two key
sets share no key, and no key of one pair extends the other pair's storage
root. -/
theorem c1_getS3Locations_deterministic_injective
    (u1 f1 u2 f2 : String) (hv1 : validId u1) (hv2 : validId f1)
    (hv3 : validId u2) (hv4 : validId f2) (hne : (u1, f1) ≠ (u2, f2)) :
    (∀ u' f', u' = u1 → f' = f1 → getS3Locations u' f' = getS3Locations u1 f1) ∧
    (∀ k, k ∈ keyList (getS3Locations u1 f1) → k ∉ keyList (getS3Locations u2 f2)) ∧
    (∀ k, k ∈ keyList (getS3Locations u1 f1) →
      ¬ (storageRoot u2 f2).data <+: k.data) := by
  refine ⟨fun u' f' hu hf => by rw [hu, hf], ?_, ?_⟩
  · intro k hk1 hk2
    simp only [keyList, getS3Locations, List.mem_cons, List.mem_singleton,
      List.not_mem_nil, or_false] at hk1 hk2
    rcases hk1 with rfl|rfl|rfl|rfl|rfl|rfl <;>
      rcases hk2 with h|h|h|h|h|h <;>
      · apply hne
        have hd := congrArg String.data h
        rw [key_data, key_data] at hd
        obtain ⟨e1, e2, -⟩ := slashFree_root_inj hv1.1 hv3.1 hv2.1 hv4.1 hd
        rw [e1, e2]
  · intro k hk1 hpre
    simp only [keyList, getS3Locations, List.mem_cons, List.mem_singleton,
      List.not_mem_nil, or_false] at hk1
    rcases hk1 with rfl|rfl|rfl|rfl|rfl|rfl <;>
      · apply hne
        rw [key_data] at hpre
        obtain ⟨e1, e2⟩ := root_prefix_inj hv1.1 hv3.1 hv2.1 hv4.1 hpre
        rw [e1, e2]

/-- Witness for C1 at two concrete valid pairs sharing the user id. -/
theorem c1_witness :
    (∀ u' f', u' = hexId 'a' → f' = hexId 'b' →
      getS3Locations u' f' = getS3Locations (hexId 'a') (hexId 'b')) ∧
    (∀ k, k ∈ keyList (getS3Locations (hexId 'a') (hexId 'b')) →
      k ∉ keyList (getS3Locations (hexId 'a') (hexId 'c'))) ∧
    (∀ k, k ∈ keyList (getS3Locations (hexId 'a') (hexId 'b')) →
      ¬ (storageRoot (hexId 'a') (hexId 'c')).data <+: k.data) :=
  c1_getS3Locations_deterministic_injective (hexId 'a') (hexId 'b') (hexId 'a') (hexId 'c')
    (by decide) (by decide) (by decide) (by decide) (by decide)

/-- C5: `deleteWorkItem` first deletes every object under the storage root and
then the metadata record, in that order (visible in the command trace); after
it, no object under the root and no metadata record remains, and a second
call on the result succeeds entirely, its object-deletion phase a no-op (no
`DeleteObjects` is issued for the empty listing). -/
theorem c5_deleteWorkItem_order_and_idempotence (cfg : StorageConfig)
    (userId fileId : String) (st : St) (hen : cfg.enabled = true) :
    ∃ st', deleteWorkItem cfg userId fileId st =
        (.ok (), st',
          [Event.s3List (storageRoot userId fileId)] ++
            (if s3ListKeys st (storageRoot userId fileId) = [] then []
             else [Event.s3DeleteMany (s3ListKeys st (storageRoot userId fileId))]) ++
            [Event.ddbDelete (userId, fileId)]) ∧
      (∀ kv ∈ st'.s3, ¬ (storageRoot userId fileId).data <+: kv.1.data) ∧
      ddbLookup st' (userId, fileId) = none ∧
      (deleteWorkItem cfg userId fileId st').1 = .ok () ∧
      (deleteWorkItem cfg userId fileId st').2.2 =
        [Event.s3List (storageRoot userId fileId), Event.ddbDelete (userId, fileId)] := by
  have hg : ¬cfg.enabled = false := by rw [hen]; simp
  by_cases hks : s3ListKeys st (storageRoot userId fileId) = []
  · refine ⟨ddbDeleteItem st (userId, fileId), ?_, ?_, ?_, ?_, ?_⟩
    · simp [deleteWorkItem, hen, hks]
    · intro kv hkv
      exact s3ListKeys_nil hks kv hkv
    · simp only [ddbLookup, ddbDeleteItem]
      exact lookup_filter_ne _ _
    · have : s3ListKeys (ddbDeleteItem st (userId, fileId)) (storageRoot userId fileId) = [] := hks
      simp [deleteWorkItem, hen, this]
    · have : s3ListKeys (ddbDeleteItem st (userId, fileId)) (storageRoot userId fileId) = [] := hks
      simp [deleteWorkItem, hen, this]
  · refine ⟨ddbDeleteItem (s3DeleteKeys st (s3ListKeys st (storageRoot userId fileId)))
      (userId, fileId), ?_, ?_, ?_, ?_, ?_⟩
    · simp [deleteWorkItem, hen, hks]
    · intro kv hkv hpre
      have hkv2 : kv ∈ st.s3 ∧
          decide (kv.1 ∉ s3ListKeys st (storageRoot userId fileId)) = true :=
        List.mem_filter.mp hkv
      exact (of_decide_eq_true hkv2.2) (mem_s3ListKeys hkv2.1 hpre)
    · simp only [ddbLookup, ddbDeleteItem]
      exact lookup_filter_ne _ _
    · have hnil : s3ListKeys (ddbDeleteItem
          (s3DeleteKeys st (s3ListKeys st (storageRoot userId fileId))) (userId, fileId))
          (storageRoot userId fileId) = [] := by
        apply List.map_eq_nil_iff.mpr
        apply List.filter_eq_nil_iff.mpr
        intro kv hkv
        have hkv2 : kv ∈ st.s3 ∧
            decide (kv.1 ∉ s3ListKeys st (storageRoot userId fileId)) = true :=
          List.mem_filter.mp hkv
        intro hp
        exact (of_decide_eq_true hkv2.2)
          (mem_s3ListKeys hkv2.1 (List.isPrefixOf_iff_prefix.mp hp))
      simp [deleteWorkItem, hen, hnil]
    · have hnil : s3ListKeys (ddbDeleteItem
          (s3DeleteKeys st (s3ListKeys st (storageRoot userId fileId))) (userId, fileId))
          (storageRoot userId fileId) = [] := by
        apply List.map_eq_nil_iff.mpr
        apply List.filter_eq_nil_iff.mpr
        intro kv hkv
        have hkv2 : kv ∈ st.s3 ∧
            decide (kv.1 ∉ s3ListKeys st (storageRoot userId fileId)) = true :=
          List.mem_filter.mp hkv
        intro hp
        exact (of_decide_eq_true hkv2.2)
          (mem_s3ListKeys hkv2.1 (List.isPrefixOf_iff_prefix.mp hp))
      simp [deleteWorkItem, hen, hnil]

/-- Witness for C5 at a concrete state holding two objects and one record. -/
theorem c5_witness :
    ∃ st', deleteWorkItem cfgOn "u" "f" stPacked =
        (.ok (), st',
          [Event.s3List (storageRoot "u" "f")] ++
            (if s3ListKeys stPacked (storageRoot "u" "f") = [] then []
             else [Event.s3DeleteMany (s3ListKeys stPacked (storageRoot "u" "f"))]) ++
            [Event.ddbDelete ("u", "f")]) ∧
      (∀ kv ∈ st'.s3, ¬ (storageRoot "u" "f").data <+: kv.1.data) ∧
      ddbLookup st' ("u", "f") = none ∧
      (deleteWorkItem cfgOn "u" "f" st').1 = .ok () ∧
      (deleteWorkItem cfgOn "u" "f" st').2.2 =
        [Event.s3List (storageRoot "u" "f"), Event.ddbDelete ("u", "f")] :=
  c5_deleteWorkItem_order_and_idempotence cfgOn "u" "f" stPacked (by decide)

/-- C2: for a work item in MULTIPLE_FILES or ZIP_FILE mode,
`getOriginalContent` with `forDownload = false` returns the packed content as
`text/plain` when the packed-content key exists, and falls back to serving
the original content when the packed-content fetch fails, instead of
surfacing the packed-content error. -/
theorem c2_getOriginalContent_packed_fallback (cfg : StorageConfig)
    (userId fileId : String) (st : St) (wi : WorkItem)
    (hen : cfg.enabled = true)
    (hwi : ddbLookup st (userId, fileId) = some wi)
    (hmode : wi.uploadMode = .MULTIPLE_FILES ∨ wi.uploadMode = .ZIP_FILE) :
    (∀ pobj, s3Lookup st (getS3Locations userId fileId).packedContent = some pobj →
      getOriginalContent cfg userId fileId false st =
        (.ok ⟨.str (utf8Decode (contentBytes pobj.body)), "text/plain"⟩, st,
         [Event.ddbGet (userId, fileId),
          Event.s3Get (getS3Locations userId fileId).packedContent])) ∧
    (∀ oobj, s3Lookup st (getS3Locations userId fileId).packedContent = none →
      s3Lookup st (getS3Locations userId fileId).originalContent = some oobj →
      getOriginalContent cfg userId fileId false st =
        (.ok (serveStoredOriginal oobj false), st,
         [Event.ddbGet (userId, fileId),
          Event.s3Get (getS3Locations userId fileId).packedContent,
          Event.s3Get (getS3Locations userId fileId).originalContent])) := by
  have hgw : getWorkItem cfg userId fileId st = (.ok wi, st, [.ddbGet (userId, fileId)]) := by
    simp [getWorkItem, hen, hwi]
  constructor
  · intro pobj hp
    have hgp : getPackedContent cfg userId fileId st =
        (.ok (utf8Decode (contentBytes pobj.body)), st,
         [.s3Get (getS3Locations userId fileId).packedContent]) := by
      simp [getPackedContent, hen, hp]
    rcases hmode with hm | hm <;>
      simp [getOriginalContent, hen, hgw, hgp, hm]
  · intro oobj hpn ho
    have hgp : getPackedContent cfg userId fileId st =
        (.error (.wrapped "Failed to get packed content"
            (.s3NoSuchKey (getS3Locations userId fileId).packedContent)), st,
         [.s3Get (getS3Locations userId fileId).packedContent]) := by
      simp [getPackedContent, hen, hpn]
    rcases hmode with hm | hm <;>
      simp [getOriginalContent, hen, hgw, hgp, hm, fetchServeOriginal, ho]

/-- Witness for C2, demonstrating both branches: packed content present
(returned as `text/plain`) and packed content removed (fallback to the
original archive). -/
theorem c2_witness :
    getOriginalContent cfgOn "u" "f" false stPacked =
      (.ok ⟨.str "PACKED", "text/plain"⟩, stPacked,
       [Event.ddbGet ("u", "f"), Event.s3Get "u/f/packed_content"]) ∧
    getOriginalContent cfgOn "u" "f" false stNoPacked =
      (.ok ⟨.str "hi", "application/zip"⟩, stNoPacked,
       [Event.ddbGet ("u", "f"), Event.s3Get "u/f/packed_content",
        Event.s3Get "u/f/original_content"]) := by
  constructor
  · have h := (c2_getOriginalContent_packed_fallback cfgOn "u" "f" stPacked wiZip
      (by decide) (by decide) (by decide)).1 ⟨.str "PACKED", "text/plain"⟩ (by decide)
    exact h.trans (by decide)
  · have h := (c2_getOriginalContent_packed_fallback cfgOn "u" "f" stNoPacked wiZip
      (by decide) (by decide) (by decide)).2 ⟨.buf [104, 105], "application/zip"⟩
      (by decide) (by decide)
    exact h.trans (by decide)

/-- Counterexample to C8 as stated: with `forDownload = true` an image is
returned as a raw buffer, not as a `data:` URI, so images are *not* returned
as data URIs regardless of mode. -/
theorem c8_counterexample :
    (getOriginalContent cfgOn "u" "f" true stImg).1 =
      .ok ⟨.buf [137, 80], "image/png"⟩ ∧
    (∀ s, Content.buf [137, 80] ≠ Content.str s) :=
  ⟨by decide, fun s h => nomatch h⟩

/-- C8 (amended): only in the in-app mode (`forDownload = false`) is image
content returned as a self-describing data URI and non-image content as a
UTF-8-decoded string; `forDownload = true` always returns the raw bytes. -/
theorem c8_image_dataURI_text_utf8 (cfg : StorageConfig)
    (userId fileId : String) (st : St) (wi : WorkItem) (obj : S3Obj)
    (hen : cfg.enabled = true)
    (hwi : ddbLookup st (userId, fileId) = some wi)
    (hmode : wi.uploadMode = .SINGLE_FILE)
    (ho : s3Lookup st (getS3Locations userId fileId).originalContent = some obj)
    (hct : obj.contentType ≠ "") :
    (strStartsWith obj.contentType "image/" = true →
      getOriginalContent cfg userId fileId false st =
        (.ok ⟨.str ("data:" ++ obj.contentType ++ ";base64," ++
            base64Encode (contentBytes obj.body)), obj.contentType⟩, st,
         [Event.ddbGet (userId, fileId),
          Event.s3Get (getS3Locations userId fileId).originalContent])) ∧
    (strStartsWith obj.contentType "image/" = false →
      getOriginalContent cfg userId fileId false st =
        (.ok ⟨.str (utf8Decode (contentBytes obj.body)), obj.contentType⟩, st,
         [Event.ddbGet (userId, fileId),
          Event.s3Get (getS3Locations userId fileId).originalContent])) ∧
    (getOriginalContent cfg userId fileId true st =
      (.ok ⟨.buf (contentBytes obj.body), obj.contentType⟩, st,
       [Event.ddbGet (userId, fileId),
        Event.s3Get (getS3Locations userId fileId).originalContent])) := by
  have hgw : getWorkItem cfg userId fileId st = (.ok wi, st, [.ddbGet (userId, fileId)]) := by
    simp [getWorkItem, hen, hwi]
  refine ⟨?_, ?_, ?_⟩
  · intro himg
    simp [getOriginalContent, hen, hgw, hmode, fetchServeOriginal, ho,
      serveStoredOriginal, hct, himg]
  · intro himg
    simp [getOriginalContent, hen, hgw, hmode, fetchServeOriginal, ho,
      serveStoredOriginal, hct, himg]
  · simp [getOriginalContent, hen, hgw, fetchServeOriginal, ho,
      serveStoredOriginal, hct]

/-- Witness for the amended C8 at a concrete image state: in-app view yields
the data URI, download yields the raw bytes. -/
theorem c8_witness :
    getOriginalContent cfgOn "u" "f" false stImg =
      (.ok ⟨.str "data:image/png;base64,iVA=", "image/png"⟩, stImg,
       [Event.ddbGet ("u", "f"), Event.s3Get "u/f/original_content"]) ∧
    getOriginalContent cfgOn "u" "f" true stImg =
      (.ok ⟨.buf [137, 80], "image/png"⟩, stImg,
       [Event.ddbGet ("u", "f"), Event.s3Get "u/f/original_content"]) := by
  have h := c8_image_dataURI_text_utf8 cfgOn "u" "f" stImg sampleWorkItem
    ⟨.buf [137, 80], "image/png"⟩ (by decide) (by decide) (by decide) (by decide) (by decide)
  exact ⟨(h.1 (by decide)).trans (by decide), h.2.2.trans (by decide)⟩

/-- Counterexample to C7 as stated: storing the string `"QQ=="` with an
`image/png` file type stores the base64-decoded byte `[65]`; retrieving for
download returns `[65]`, which is not byte-identical to the stored content
(whose bytes are `[81, 81, 61, 61]`). -/
theorem c7_counterexample :
    (getOriginalContent cfgOn "u" "f" true
        (storeOriginalContent cfgOn "u" "f" (.str "QQ==") "image/png" stMeta).2.1).1 =
      .ok ⟨.buf [65], "image/png"⟩ ∧
    contentBytes (.str "QQ==") = [81, 81, 61, 61] ∧
    Content.buf [65] ≠ .buf (contentBytes (.str "QQ==")) := by
  decide

/-- C7 (amended): for buffer content, and for string content whose file type
is not `image/*`, storing original content and retrieving it with
`forDownload = true` returns exactly the stored bytes and the stored content
type (a nonempty file type, lest the `application/octet-stream` default kick
in; a work item record must exist for the read path's metadata lookup). -/
theorem c7_store_get_roundtrip (cfg : StorageConfig) (userId fileId : String)
    (st : St) (wi : WorkItem) (content : Content) (fileType : String)
    (hen : cfg.enabled = true)
    (hwi : ddbLookup st (userId, fileId) = some wi)
    (hft : fileType ≠ "")
    (hcase : (∃ b, content = .buf b) ∨ strStartsWith fileType "image/" = false) :
    storeOriginalContent cfg userId fileId content fileType st =
      (.ok (),
       s3PutObj st (getS3Locations userId fileId).originalContent ⟨content, fileType⟩,
       [Event.s3Put (getS3Locations userId fileId).originalContent]) ∧
    getOriginalContent cfg userId fileId true
        (s3PutObj st (getS3Locations userId fileId).originalContent ⟨content, fileType⟩) =
      (.ok ⟨.buf (contentBytes content), fileType⟩,
       s3PutObj st (getS3Locations userId fileId).originalContent ⟨content, fileType⟩,
       [Event.ddbGet (userId, fileId),
        Event.s3Get (getS3Locations userId fileId).originalContent]) := by
  constructor
  · rcases hcase with ⟨b, rfl⟩ | himg
    · simp [storeOriginalContent, hen]
    · cases content with
      | str s => simp [storeOriginalContent, hen, himg]
      | buf b => simp [storeOriginalContent, hen]
  · have hwi1 : ddbLookup (s3PutObj st (getS3Locations userId fileId).originalContent
        ⟨content, fileType⟩) (userId, fileId) = some wi := hwi
    have hgw : getWorkItem cfg userId fileId
        (s3PutObj st (getS3Locations userId fileId).originalContent ⟨content, fileType⟩) =
        (.ok wi,
         s3PutObj st (getS3Locations userId fileId).originalContent ⟨content, fileType⟩,
         [.ddbGet (userId, fileId)]) := by
      simp [getWorkItem, hen, hwi1]
    have hsl : s3Lookup
        (s3PutObj st (getS3Locations userId fileId).originalContent ⟨content, fileType⟩)
        (getS3Locations userId fileId).originalContent = some ⟨content, fileType⟩ := by
      simp [s3Lookup, s3PutObj, List.lookup]
    simp [getOriginalContent, hen, hgw, fetchServeOriginal, hsl,
      serveStoredOriginal, hft]

/-- Witness for the amended C7: a buffer round-trips byte-identically with
its content type. -/
theorem c7_witness :
    storeOriginalContent cfgOn "u" "f" (.buf [104, 105]) "application/zip" stMeta =
      (.ok (),
       s3PutObj stMeta (getS3Locations "u" "f").originalContent
         ⟨.buf [104, 105], "application/zip"⟩,
       [Event.s3Put (getS3Locations "u" "f").originalContent]) ∧
    getOriginalContent cfgOn "u" "f" true
        (s3PutObj stMeta (getS3Locations "u" "f").originalContent
          ⟨.buf [104, 105], "application/zip"⟩) =
      (.ok ⟨.buf (contentBytes (.buf [104, 105])), "application/zip"⟩,
       s3PutObj stMeta (getS3Locations "u" "f").originalContent
         ⟨.buf [104, 105], "application/zip"⟩,
       [Event.ddbGet ("u", "f"), Event.s3Get (getS3Locations "u" "f").originalContent]) :=
  c7_store_get_roundtrip cfgOn "u" "f" stMeta sampleWorkItem (.buf [104, 105])
    "application/zip" (by decide) (by decide) (by decide) (.inl ⟨[104, 105], rfl⟩)

/-- C9: `getSupportingDocument` fails before any blob fetch when the work
item links no supporting document or when the supplied id differs from the
linked one, and issues the blob fetch exactly when the supplied id equals the
linked id (with the link marked added). -/
theorem c9_getSupportingDocument_validation (cfg : StorageConfig)
    (userId mainFileId supportingDocId : String) (st : St) (wi : WorkItem)
    (hen : cfg.enabled = true)
    (hwi : ddbLookup st (userId, mainFileId) = some wi) :
    ((jsFalsyOptStr wi.supportingDocumentId ||
        jsFalsyOptBool wi.supportingDocumentAdded) = true →
      getSupportingDocument cfg userId mainFileId supportingDocId st =
        (.error (.wrapped "Failed to get supporting document" .noSupportingDoc), st,
         [Event.ddbGet (userId, mainFileId)])) ∧
    ((jsFalsyOptStr wi.supportingDocumentId ||
        jsFalsyOptBool wi.supportingDocumentAdded) = false →
      wi.supportingDocumentId ≠ some supportingDocId →
      getSupportingDocument cfg userId mainFileId supportingDocId st =
        (.error (.wrapped "Failed to get supporting document" .supportingDocMismatch), st,
         [Event.ddbGet (userId, mainFileId)])) ∧
    (Event.s3Get (supportingDocKey userId mainFileId supportingDocId) ∈
        (getSupportingDocument cfg userId mainFileId supportingDocId st).2.2 ↔
      ((jsFalsyOptStr wi.supportingDocumentId ||
          jsFalsyOptBool wi.supportingDocumentAdded) = false ∧
        wi.supportingDocumentId = some supportingDocId)) := by
  have hgw : getWorkItem cfg userId mainFileId st =
      (.ok wi, st, [.ddbGet (userId, mainFileId)]) := by
    simp [getWorkItem, hen, hwi]
  refine ⟨?_, ?_, ?_⟩
  · intro hf
    simp [getSupportingDocument, hen, hgw, hf]
  · intro hf hne
    simp [getSupportingDocument, hen, hgw, hf, hne]
  · by_cases hf : (jsFalsyOptStr wi.supportingDocumentId ||
        jsFalsyOptBool wi.supportingDocumentAdded) = true
    · simp [getSupportingDocument, hen, hgw, hf]
    · have hf2 : (jsFalsyOptStr wi.supportingDocumentId ||
          jsFalsyOptBool wi.supportingDocumentAdded) = false := by
        simpa using hf
      by_cases hid : wi.supportingDocumentId = some supportingDocId
      · obtain ⟨hb1, hb2⟩ := Bool.or_eq_false_iff.mp hf2
        rw [hid] at hb1
        rcases hsl : s3Lookup st (supportingDocKey userId mainFileId supportingDocId)
          with _ | obj <;>
          simp [getSupportingDocument, hen, hgw, hb1, hb2, hid, hsl]
      · simp [getSupportingDocument, hen, hgw, hf2, hid]

/-- Witness for C9 at a concrete state whose work item links document
`"d1"` while `"d2"` is requested: the call fails with the mismatch cause and
no blob fetch appears in the trace. -/
theorem c9_witness :
    getSupportingDocument cfgOn "u" "f" "d2" stDoc =
      (.error (.wrapped "Failed to get supporting document" .supportingDocMismatch),
       stDoc, [Event.ddbGet ("u", "f")]) ∧
    Event.s3Get (supportingDocKey "u" "f" "d2") ∉
      (getSupportingDocument cfgOn "u" "f" "d2" stDoc).2.2 := by
  have h := c9_getSupportingDocument_validation cfgOn "u" "f" "d2" stDoc wiDoc
    (by decide) (by decide)
  refine ⟨h.2.1 (by decide) (by decide), fun hmem => ?_⟩
  exact absurd (h.2.2.mp hmem).2 (by decide)

/-- Counterexample to C4 as stated: an update map whose only entry is
`undefined` makes the source send the expression `'SET '`, which the metadata
store rejects; the call throws instead of returning the (unchanged)
post-update record. -/
theorem c4_counterexample :
    updateWorkItem cfgOn "u" "f" [("analysisStatus", none)]
        [(("u", "f"), [("userId", .S "u"), ("fileId", .S "f")])] =
      (.error (.wrapped "Failed to update work item"
          (.msg "ValidationException: invalid UpdateExpression")),
       [(("u", "f"), [("userId", .S "u"), ("fileId", .S "f")])]) := by
  decide

/-- C4 (amended): for an existing record and an update map with at least one
non-`undefined` entry (and distinct field names, as a TypeScript object
guarantees), `updateWorkItem` writes exactly the non-`undefined` fields —
each through an escaped `#field` attribute name — leaves every other
attribute unchanged, and returns the full post-update record, which is what
the store now holds. -/
theorem c4_updateWorkItem_exact_fields (cfg : StorageConfig) (userId fileId : String)
    (updates : WorkItemUpdate) (tbl : AttrTable) (m : AttrMap)
    (hen : cfg.enabled = true)
    (hm : List.lookup (userId, fileId) tbl = some m)
    (hnd : (updates.map Prod.fst).Nodup)
    (hne : effectiveUpdates updates ≠ []) :
    ∃ m2, updateWorkItem cfg userId fileId updates tbl =
        (.ok m2,
         ((userId, fileId), m2) ::
           tbl.filter (fun kv => decide (kv.1 ≠ (userId, fileId)))) ∧
      (∀ k v, (k, v) ∈ effectiveUpdates updates → getAttr m2 k = some v) ∧
      (∀ k, k ∉ (effectiveUpdates updates).map Prod.fst →
        getAttr m2 k = getAttr m k) ∧
      (buildUpdateParts updates).exprAttrNames =
        (effectiveUpdates updates).map (fun kv => ("#" ++ kv.1, kv.1)) := by
  have hndeff : ((effectiveUpdates updates).map Prod.fst).Nodup :=
    List.Nodup.sublist (effective_keys_sublist updates) hnd
  have hres := resolvedSets_buildUpdateParts updates hndeff
  have hexpr : ¬ (buildUpdateParts updates).updateExpr = [] := by
    simp only [buildUpdateParts]
    intro hmap
    exact hne (List.map_eq_nil_iff.mp hmap)
  refine ⟨applySets m (effectiveUpdates updates), ?_, ?_, ?_, rfl⟩
  · simp [updateWorkItem, hen, dynamoUpdateItem, hexpr, hm, hres]
  · intro k v hkv
    exact getAttr_applySets_mem _ _ _ _ hndeff hkv
  · intro k hk
    exact getAttr_applySets_not_mem _ _ _ hk

/-- Witness for the amended C4 at a concrete table and update map. -/
theorem c4_witness :
    ∃ m2, updateWorkItem cfgOn "u" "f"
            [("analysisStatus", some (.S "IN_PROGRESS")), ("lastModified", none)]
            [(("u", "f"),
              [("userId", .S "u"), ("fileId", .S "f"),
               ("analysisStatus", .S "NOT_STARTED"), ("other", .N 3)])] =
        (.ok m2,
         (("u", "f"), m2) ::
           ([(("u", "f"),
              [("userId", .S "u"), ("fileId", .S "f"),
               ("analysisStatus", .S "NOT_STARTED"), ("other", .N 3)])] :
             AttrTable).filter (fun kv => decide (kv.1 ≠ ("u", "f")))) ∧
      (∀ k v, (k, v) ∈ effectiveUpdates
          [("analysisStatus", some (.S "IN_PROGRESS")), ("lastModified", none)] →
        getAttr m2 k = some v) ∧
      (∀ k, k ∉ (effectiveUpdates
          [("analysisStatus", some (.S "IN_PROGRESS")), ("lastModified", none)]).map
            Prod.fst →
        getAttr m2 k = getAttr [("userId", .S "u"), ("fileId", .S "f"),
          ("analysisStatus", .S "NOT_STARTED"), ("other", .N 3)] k) ∧
      (buildUpdateParts
          [("analysisStatus", some (.S "IN_PROGRESS")), ("lastModified", none)]).exprAttrNames =
        (effectiveUpdates
          [("analysisStatus", some (.S "IN_PROGRESS")), ("lastModified", none)]).map
          (fun kv => ("#" ++ kv.1, kv.1)) :=
  c4_updateWorkItem_exact_fields cfgOn "u" "f"
    [("analysisStatus", some (.S "IN_PROGRESS")), ("lastModified", none)]
    [(("u", "f"),
      [("userId", .S "u"), ("fileId", .S "f"),
       ("analysisStatus", .S "NOT_STARTED"), ("other", .N 3)])]
    [("userId", .S "u"), ("fileId", .S "f"),
     ("analysisStatus", .S "NOT_STARTED"), ("other", .N 3)]
    (by decide) (by decide) (by decide) (by decide)

/-- Counterexample to C10 as stated: with no existing record and an empty
update map the call throws (invalid empty update expression) — no record is
created and none is returned. -/
theorem c10_counterexample :
    updateWorkItem cfgOn "u" "g" [] [] =
      (.error (.wrapped "Failed to update work item"
          (.msg "ValidationException: invalid UpdateExpression")), []) := by
  decide

/-- C10 (amended): for a `(userId, fileId)` pair with no existing record and
an update map with at least one non-`undefined` entry none of which names a
key attribute, `updateWorkItem` does not fail with NotFound: the update
upserts, creating a record holding exactly the two key attributes plus the
non-`undefined` fields, and returns that partial record. -/
theorem c10_updateWorkItem_upsert (cfg : StorageConfig) (userId fileId : String)
    (updates : WorkItemUpdate) (tbl : AttrTable)
    (hen : cfg.enabled = true)
    (hmiss : List.lookup (userId, fileId) tbl = none)
    (hnd : (updates.map Prod.fst).Nodup)
    (hne : effectiveUpdates updates ≠ [])
    (hku : "userId" ∉ (effectiveUpdates updates).map Prod.fst)
    (hkf : "fileId" ∉ (effectiveUpdates updates).map Prod.fst) :
    ∃ m2, updateWorkItem cfg userId fileId updates tbl =
        (.ok m2,
         ((userId, fileId), m2) ::
           tbl.filter (fun kv => decide (kv.1 ≠ (userId, fileId)))) ∧
      getAttr m2 "userId" = some (.S userId) ∧
      getAttr m2 "fileId" = some (.S fileId) ∧
      (∀ k v, (k, v) ∈ effectiveUpdates updates → getAttr m2 k = some v) ∧
      (∀ k, k ∉ (effectiveUpdates updates).map Prod.fst →
        k ≠ "userId" → k ≠ "fileId" → getAttr m2 k = none) := by
  have hndeff : ((effectiveUpdates updates).map Prod.fst).Nodup :=
    List.Nodup.sublist (effective_keys_sublist updates) hnd
  have hres := resolvedSets_buildUpdateParts updates hndeff
  have hexpr : ¬ (buildUpdateParts updates).updateExpr = [] := by
    simp only [buildUpdateParts]
    intro hmap
    exact hne (List.map_eq_nil_iff.mp hmap)
  refine ⟨applySets [("userId", .S userId), ("fileId", .S fileId)]
    (effectiveUpdates updates), ?_, ?_, ?_, ?_, ?_⟩
  · simp [updateWorkItem, hen, dynamoUpdateItem, hexpr, hmiss, hres]
  · rw [getAttr_applySets_not_mem _ _ _ hku]
    simp [getAttr, List.lookup]
  · rw [getAttr_applySets_not_mem _ _ _ hkf]
    simp [getAttr, List.lookup]
  · intro k v hkv
    exact getAttr_applySets_mem _ _ _ _ hndeff hkv
  · intro k hk hk1 hk2
    rw [getAttr_applySets_not_mem _ _ _ hk]
    have hb1 : (k == "userId") = false := beq_eq_false_iff_ne.mpr hk1
    have hb2 : (k == "fileId") = false := beq_eq_false_iff_ne.mpr hk2
    simp [getAttr, List.lookup, hb1, hb2]

/-- Witness for the amended C10: updating a missing record creates and
returns the partial record. -/
theorem c10_witness :
    ∃ m2, updateWorkItem cfgOn "u" "f" [("analysisStatus", some (.S "COMPLETED"))] [] =
        (.ok m2,
         (("u", "f"), m2) ::
           ([] : AttrTable).filter (fun kv => decide (kv.1 ≠ ("u", "f")))) ∧
      getAttr m2 "userId" = some (.S "u") ∧
      getAttr m2 "fileId" = some (.S "f") ∧
      (∀ k v, (k, v) ∈ effectiveUpdates [("analysisStatus", some (.S "COMPLETED"))] →
        getAttr m2 k = some v) ∧
      (∀ k, k ∉ (effectiveUpdates
          [("analysisStatus", some (.S "COMPLETED"))]).map Prod.fst →
        k ≠ "userId" → k ≠ "fileId" → getAttr m2 k = none) :=
  c10_updateWorkItem_upsert cfgOn "u" "f" [("analysisStatus", some (.S "COMPLETED"))] []
    (by decide) (by decide) (by decide) (by decide) (by decide) (by decide)

theorem storeOriginalContent_ddb (cfg : StorageConfig) (u f : String) (c : Content)
    (ft : String) (st : St) :
    ((storeOriginalContent cfg u f c ft st).2.1).ddb = st.ddb := by
  unfold storeOriginalContent
  split
  · rfl
  · split <;> rfl

theorem storePackedContent_ddb (cfg : StorageConfig) (u f c : String) (st : St) :
    ((storePackedContent cfg u f c st).2.1).ddb = st.ddb := by
  unfold storePackedContent
  split <;> rfl

/-- The DynamoDB table after a successful extraction in `handleZipFile`: the
new record (and nothing else) is prepended, in every outcome of the two S3
writes. -/
theorem handleZipFile_ddb (cfg : StorageConfig) (hashFn : String → String)
    (now : String) (limit : Nat)
    (extractZip : List Nat → String → Except String String)
    (userId filename : String) (buffer : List Nat) (st : St) (text : String)
    (hx : extractZip buffer filename = .ok text) :
    ((handleZipFile cfg hashFn now limit extractZip userId filename buffer st).2.1).ddb =
      ((userId, hashFn (filename ++ now)),
        mkZipWorkItem userId (hashFn (filename ++ now)) filename now
          (mkPackedProject limit text)) :: st.ddb := by
  have h2 := storeOriginalContent_ddb cfg userId (hashFn (filename ++ now)) (.buf buffer)
      "application/zip"
      (ddbPutItem st
        ((mkZipWorkItem userId (hashFn (filename ++ now)) filename now
            (mkPackedProject limit text)).userId,
         (mkZipWorkItem userId (hashFn (filename ++ now)) filename now
            (mkPackedProject limit text)).fileId)
        (mkZipWorkItem userId (hashFn (filename ++ now)) filename now
          (mkPackedProject limit text)))
  simp only [handleZipFile, hx, Except.map, storeWorkItemInDynamoDB]
  split
  · rename_i heq
    rw [heq] at h2
    exact h2
  · rename_i st2 tr2 heq
    rw [heq] at h2
    have h3 := storePackedContent_ddb cfg userId (hashFn (filename ++ now))
        (mkPackedProject limit text).packedContent st2
    split
    · rename_i heq2
      rw [heq2] at h3
      exact h3.trans h2
    · rename_i heq2
      rw [heq2] at h3
      exact h3.trans h2

/-- The DynamoDB table after a successful extraction in
`handleMultipleFiles`: the new record (and nothing else) is prepended, in
every outcome of the two S3 writes. -/
theorem handleMultipleFiles_ddb (cfg : StorageConfig) (hashFn : String → String)
    (now : String) (limit : Nat) (mkZip : List FileInput → List Nat)
    (extractMulti : List FileInput → Except String String)
    (userId : String) (f0 : FileInput) (rest : List FileInput) (st : St)
    (text : String) (hx : extractMulti (f0 :: rest) = .ok text) :
    ((handleMultipleFiles cfg hashFn now limit mkZip extractMulti userId
        (f0 :: rest) st).2.1).ddb =
      ((userId, hashFn (f0.filename ++ now)),
        mkMultiWorkItem userId (hashFn (f0.filename ++ now))
          (combinedName (f0 :: rest)) now (mkPackedProject limit text)) :: st.ddb := by
  have h2 := storeOriginalContent_ddb cfg userId (hashFn (f0.filename ++ now))
      (.buf (mkZip (f0 :: rest))) "application/zip"
      (ddbPutItem st
        ((mkMultiWorkItem userId (hashFn (f0.filename ++ now))
            (combinedName (f0 :: rest)) now (mkPackedProject limit text)).userId,
         (mkMultiWorkItem userId (hashFn (f0.filename ++ now))
            (combinedName (f0 :: rest)) now (mkPackedProject limit text)).fileId)
        (mkMultiWorkItem userId (hashFn (f0.filename ++ now))
          (combinedName (f0 :: rest)) now (mkPackedProject limit text)))
  simp only [handleMultipleFiles, hx, Except.map, storeWorkItemInDynamoDB]
  split
  · rename_i heq
    rw [heq] at h2
    exact h2
  · rename_i st2 tr2 heq
    rw [heq] at h2
    have h3 := storePackedContent_ddb cfg userId (hashFn (f0.filename ++ now))
        (mkPackedProject limit text).packedContent st2
    split
    · rename_i heq2
      rw [heq2] at h3
      exact h3.trans h2
    · rename_i heq2
      rw [heq2] at h3
      exact h3.trans h2

/-- C3: every work-item record written by `handleZipFile` or
`handleMultipleFiles` satisfies `exceedsTokenLimit = (tokenCount > limit)` —
in particular, a token count equal to the configured limit stores `false`.
Records already in the table are untouched.  (The packer's token fields are
modelled from the spec, see `mkPackedProject`.) -/
theorem c3_token_fields_consistent (cfg : StorageConfig) (hashFn : String → String)
    (now : String) (limit : Nat)
    (extractZip : List Nat → String → Except String String)
    (mkZip : List FileInput → List Nat)
    (extractMulti : List FileInput → Except String String)
    (userId filename : String) (buffer : List Nat) (files : List FileInput)
    (st : St) (key : String × String) (wi : WorkItem) :
    (ddbLookup
        (handleZipFile cfg hashFn now limit extractZip userId filename buffer st).2.1
        key = some wi →
      ddbLookup st key = some wi ∨
      ∃ t, wi.tokenCount = some t ∧
        wi.exceedsTokenLimit = some (decide (t > limit))) ∧
    (ddbLookup
        (handleMultipleFiles cfg hashFn now limit mkZip extractMulti userId files
          st).2.1 key = some wi →
      ddbLookup st key = some wi ∨
      ∃ t, wi.tokenCount = some t ∧
        wi.exceedsTokenLimit = some (decide (t > limit))) := by
  constructor
  · intro h
    cases hx : extractZip buffer filename with
    | error m =>
      simp only [ddbLookup, handleZipFile, hx, Except.map] at h
      exact .inl h
    | ok text =>
      rw [ddbLookup, handleZipFile_ddb cfg hashFn now limit extractZip userId filename
        buffer st text hx] at h
      rcases lookup_cons_cases h with ⟨-, rfl⟩ | hl
      · exact .inr ⟨estimateTokens text, rfl, rfl⟩
      · exact .inl hl
  · intro h
    cases files with
    | nil =>
      simp only [ddbLookup, handleMultipleFiles] at h
      exact .inl h
    | cons f0 rest =>
      cases hx : extractMulti (f0 :: rest) with
      | error m =>
        simp only [ddbLookup, handleMultipleFiles, hx, Except.map] at h
        exact .inl h
      | ok text =>
        rw [ddbLookup, handleMultipleFiles_ddb cfg hashFn now limit mkZip extractMulti
          userId f0 rest st text hx] at h
        rcases lookup_cons_cases h with ⟨-, rfl⟩ | hl
        · exact .inr ⟨estimateTokens text, rfl, rfl⟩
        · exact .inl hl

/-- Witness for C3 at a concrete run whose token estimate exactly equals the
configured limit (`estimateTokens "1234" = 1`, limit `1`): the record lands
in the table and its stored flag is `false`. -/
theorem c3_witness :
    (ddbLookup (⟨[], []⟩ : St) ("u", hexId 'a') =
        some (mkZipWorkItem "u" (hexId 'a') "a.zip" "T" (mkPackedProject 1 "1234")) ∨
      ∃ t, (mkZipWorkItem "u" (hexId 'a') "a.zip" "T"
          (mkPackedProject 1 "1234")).tokenCount = some t ∧
        (mkZipWorkItem "u" (hexId 'a') "a.zip" "T"
          (mkPackedProject 1 "1234")).exceedsTokenLimit = some (decide (t > 1))) ∧
    (mkZipWorkItem "u" (hexId 'a') "a.zip" "T"
        (mkPackedProject 1 "1234")).exceedsTokenLimit = some false :=
  ⟨(c3_token_fields_consistent cfgOn (fun _ => hexId 'a') "T" 1 (fun _ _ => .ok "1234")
      (fun _ => []) (fun _ => .error "") "u" "a.zip" [1] []
      ⟨[], []⟩ ("u", hexId 'a')
      (mkZipWorkItem "u" (hexId 'a') "a.zip" "T" (mkPackedProject 1 "1234"))).1
    (by decide),
   by decide⟩

/-- C6 evidence (code bug): with the subsystem disabled, `handleZipFile` does
NOT fail fast — it writes the work-item record to DynamoDB (the `ddbPut`
command is issued and the record lands in the table) and only then fails,
with the wrapped processing error carrying the disabled cause. -/
theorem c6_disabled_handleZipFile_still_writes :
    (handleZipFile cfgOff (fun s => s) "T" 10 (fun _ _ => .ok "packedtext")
        "u" "a.zip" [1] ⟨[], []⟩).1 =
      .error (.wrapped "Failed to process zip file" .disabled) ∧
    Event.ddbPut ("u", "a.zipT") ∈
      (handleZipFile cfgOff (fun s => s) "T" 10 (fun _ _ => .ok "packedtext")
        "u" "a.zip" [1] ⟨[], []⟩).2.2 ∧
    (ddbLookup
        (handleZipFile cfgOff (fun s => s) "T" 10 (fun _ _ => .ok "packedtext")
          "u" "a.zip" [1] ⟨[], []⟩).2.1 ("u", "a.zipT")).isSome = true := by
  decide

end WAStorage

